import Mathlib

/-!
Shallow embedding of the SkyView weather application's core logic:

* `js/app.js` — input validation (`validateCityInput`) and lookup
  orchestration (`searchByCity`);
* `js/ui.js` — forecast aggregation (`renderForecast`), the alert
  evaluator (`checkWeatherAlert`) and the background / particle
  classifier (`updateBackground`);
* `js/storage.js` — the recent-city list (`addRecentCity`).

Modelling conventions: JS numbers that only ever hold finite values are
modelled as `ℚ`; values that may be `NaN` or `±Infinity` are modelled
by explicit sum types.  A thrown JS exception is modelled as
`Except Unit`/`Except String`.  JS strings are modelled as `String`
over Unicode scalar values, with `.length` modelled as the UTF-16
code-unit count.
-/

namespace SkyView

/-- Decidable equality for `Except`, so that concrete runs of the
modelled fallible functions can be checked by `decide`. -/
instance {ε α : Type} [DecidableEq ε] [DecidableEq α] : DecidableEq (Except ε α) :=
  fun x y =>
    match x, y with
    | .ok a, .ok b =>
      if h : a = b then isTrue (by rw [h]) else isFalse (fun he => h (by cases he; rfl))
    | .ok _, .error _ => isFalse (fun he => Except.noConfusion he)
    | .error _, .ok _ => isFalse (fun he => Except.noConfusion he)
    | .error d, .error e =>
      if h : d = e then isTrue (by rw [h]) else isFalse (fun he => h (by cases he; rfl))

/-- ECMAScript whitespace: the set removed by `String.prototype.trim`
and matched by `\s` in regular expressions — TAB, LF, VT, FF, CR,
SPACE, NBSP, U+1680, the U+2000–U+200A space separators, LS, PS,
U+202F, U+205F, U+3000 and ZWNBSP. -/
def jsIsWhitespace (c : Char) : Bool :=
  let v := c.toNat
  decide (v = 9) || decide (v = 10) || decide (v = 11) || decide (v = 12) ||
  decide (v = 13) || decide (v = 32) || decide (v = 160) || decide (v = 0x1680) ||
  (decide (0x2000 ≤ v) && decide (v ≤ 0x200A)) ||
  decide (v = 0x2028) || decide (v = 0x2029) || decide (v = 0x202F) ||
  decide (v = 0x205F) || decide (v = 0x3000) || decide (v = 0xFEFF)

/-- JS `String.prototype.trim`: drop ECMAScript whitespace from both ends. -/
def jsTrim (s : String) : String :=
  String.mk (((s.data.dropWhile jsIsWhitespace).reverse.dropWhile jsIsWhitespace).reverse)

/-- JS `String.prototype.length`: the number of UTF-16 code units
(characters beyond the Basic Multilingual Plane count twice). -/
def utf16Len (s : String) : Nat :=
  (s.data.map (fun c => if c.toNat < 0x10000 then 1 else 2)).sum

/-- JS `String.prototype.toLowerCase`, restricted to the character
ranges this application can encounter: ASCII `A`–`Z` and the Latin-1
uppercase letters `À`–`Þ` (U+00C0–U+00DE except `×` U+00D7) map to
their lowercase forms 32 code points higher; all other characters are
left unchanged. -/
def jsToLowerChar (c : Char) : Char :=
  if 'A' ≤ c ∧ c ≤ 'Z' then Char.ofNat (c.toNat + 32)
  else if 0xC0 ≤ c.toNat ∧ c.toNat ≤ 0xDE ∧ c.toNat ≠ 0xD7 then Char.ofNat (c.toNat + 32)
  else c

/-- JS `s.toLowerCase()` (see `jsToLowerChar`). -/
def jsToLower (s : String) : String :=
  String.mk (s.data.map jsToLowerChar)

/-- JS `parseInt(s, 10)`: skip leading whitespace, read an optional
sign and then the longest prefix of decimal digits; the result is
`none` (JS `NaN`) when no digit is found. -/
def parseIntJS (s : String) : Option Int :=
  let cs := s.data.dropWhile jsIsWhitespace
  let signAndRest : Int × List Char :=
    match cs with
    | '-' :: rest => (-1, rest)
    | '+' :: rest => (1, rest)
    | _ => (1, cs)
  let ds := signAndRest.2.takeWhile Char.isDigit
  if ds.isEmpty then none
  else some (signAndRest.1 * (ds.foldl (fun n c => n * 10 + (c.toNat - '0'.toNat)) 0 : Nat))

/-! ## Input validator (`js/app.js`, `validateCityInput`) -/

/-- The result object returned by `validateCityInput`:
`{ valid, value, error? }`. -/
structure VResult where
  valid : Bool
  value : String
  error : Option String
  deriving Repr, DecidableEq

/-- One character of the validator's allow-list regular expression
`/^[a-zA-ZÀ-ÿ\s\-'.,]+$/`: ASCII letters, the whole Latin-1 block
U+00C0–U+00FF (`À-ÿ`), JS whitespace (`\s`), hyphen, apostrophe,
period and comma.  A character outside the Basic Multilingual Plane is
encoded as two surrogates in JS, neither of which is in the class, so
such characters never match. -/
def validCityChar (c : Char) : Bool :=
  (decide ('a' ≤ c) && decide (c ≤ 'z')) ||
  (decide ('A' ≤ c) && decide (c ≤ 'Z')) ||
  (decide (0xC0 ≤ c.toNat) && decide (c.toNat ≤ 0xFF)) ||
  jsIsWhitespace c ||
  decide (c = '-') || decide (c = '\'') || decide (c = '.') || decide (c = ',')

/-- `validateCityInput` from `js/app.js`: trim, then check emptiness,
minimum length 2, maximum length 100 (both in UTF-16 code units, as JS
`.length` is), then the allow-list pattern. -/
def validateCityInput (input : String) : VResult :=
  let trimmed := jsTrim input
  if utf16Len trimmed = 0 then
    ⟨false, "", some "Please enter a city name."⟩
  else if utf16Len trimmed < 2 then
    ⟨false, trimmed, some "City name must be at least 2 characters."⟩
  else if utf16Len trimmed > 100 then
    ⟨false, trimmed, some "City name is too long."⟩
  else if trimmed.data.all validCityChar then
    ⟨true, trimmed, none⟩
  else
    ⟨false, trimmed, some "City name can only contain letters, spaces, hyphens, and apostrophes."⟩

/-- Spec-side definition (refinement comparison only), following the
spec's words for the allow-list: “letters (including accented Latin
letters), spaces, hyphens, apostrophes, periods, commas only”.
Letters are the ASCII letters together with the Latin-1 letters, i.e.
U+00C0–U+00FF minus the two non-letter symbols `×` (U+00D7) and `÷`
(U+00F7). -/
def claimAllowedChar (c : Char) : Bool :=
  (decide ('a' ≤ c) && decide (c ≤ 'z')) ||
  (decide ('A' ≤ c) && decide (c ≤ 'Z')) ||
  (decide (0xC0 ≤ c.toNat) && decide (c.toNat ≤ 0xFF) &&
    decide (c.toNat ≠ 0xD7) && decide (c.toNat ≠ 0xF7)) ||
  decide (c = ' ') ||
  decide (c = '-') || decide (c = '\'') || decide (c = '.') || decide (c = ',')

/-! ## Recent-city storage (`js/storage.js`, `addRecentCity`) -/

/-- The argument of `addRecentCity` is an arbitrary JS value; the code
distinguishes strings (with `typeof city !== "string"` and the
falsiness test `!city`, which for strings only holds for `""`) from
every non-string value, all of which are rejected uniformly. -/
inductive JSVal where
  | str (s : String)
  | nonString
  deriving Repr, DecidableEq

/-- `addRecentCity` from `js/storage.js`, as a pure function from the
previously stored list to the new stored list: reject non-strings and
blank strings, remove case-insensitive duplicates of the trimmed city,
prepend it, and cap the list at `MAX_CITIES = 5`. -/
def addRecentCity (city : JSVal) (prior : List String) : List String :=
  match city with
  | .nonString => prior
  | .str s =>
    if s = "" then prior
    else
      let trimmed := jsTrim s
      if utf16Len trimmed = 0 then prior
      else
        let cities := prior.filter (fun c => jsToLower c ≠ jsToLower trimmed)
        let cities := trimmed :: cities
        if cities.length > 5 then cities.take 5 else cities

/-- No two entries of `l` are equal under case-insensitive comparison
(the `RecentCityList` invariant claimed by the spec). -/
def CaseDistinct (l : List String) : Prop :=
  l.Pairwise (fun a b => jsToLower a ≠ jsToLower b)

instance : DecidablePred CaseDistinct := fun l =>
  List.instDecidablePairwise l

/-! ## Forecast aggregation (`js/ui.js`, `renderForecast`)

`renderForecast` receives the provider's forecast payload
(`data.list`), groups the 3-hour samples by the date part of their
`dt_txt` timestamp, drops today's group, and for each of the first 5
remaining groups picks the sample closest to 12:00 and computes the
group-wide temperature bounds.  Fields of a sample that are only used
for display (icon, description, humidity, wind) are omitted from the
model; `temp_min`/`temp_max` are the fields the aggregation reads. -/

/-- A well-formed forecast sample: `dt_txt` is the provider timestamp
string `"YYYY-MM-DD HH:MM:SS"` (but the code never assumes that shape:
any string is processed by the same splitting). -/
structure ForecastEntry where
  dt_txt : String
  temp_min : ℚ
  temp_max : ℚ
  deriving Repr, DecidableEq

instance : Inhabited ForecastEntry := ⟨⟨"", 0, 0⟩⟩

/-- A raw sample as it arrives from the network: the timestamp may be
missing (`undefined`/`null`/non-string in JS), modelled as `none`. -/
structure RawEntry where
  dt_txt : Option String
  temp_min : ℚ
  temp_max : ℚ
  deriving Repr, DecidableEq

/-- Split a character list at every occurrence of `sep`; like JS
`String.prototype.split` with a single-character separator, the result
always has at least one (possibly empty) piece. -/
def splitChar (sep : Char) : List Char → List (List Char)
  | [] => [[]]
  | c :: rest =>
    let r := splitChar sep rest
    if c = sep then [] :: r
    else (c :: r.headD []) :: r.tail

/-- JS `s.split(sep)` for a one-character separator (the code only
splits on `" "` and `":"`). -/
def jsSplit (s : String) (sep : Char) : List String :=
  (splitChar sep s.data).map String.mk

/-- `entry.dt_txt.split(" ")[0]` — the date key a sample is grouped
under.  `split` always yields at least one element, so this never
fails. -/
def dateKey (e : ForecastEntry) : String :=
  (jsSplit e.dt_txt ' ').headD ""

/-- `parseInt(e.dt_txt.split(" ")[1].split(":")[0], 10)` — the sample's
hour-of-day.  If `dt_txt` contains no space, `split(" ")[1]` is
`undefined` in JS and the subsequent `.split` throws a `TypeError`
(modelled as `Except.error ()`); if the hour token is not numeric the
result is `NaN` (modelled as `Option` value `none`). -/
def entryHour (e : ForecastEntry) : Except Unit (Option Int) :=
  match (jsSplit e.dt_txt ' ').get? 1 with
  | none => .error ()
  | some t => .ok (parseIntJS ((jsSplit t ':').headD ""))

/-- The hour of a well-timed entry (`0` in the unreachable cases). -/
def hourOf (e : ForecastEntry) : Int :=
  match entryHour e with
  | .ok (some h) => h
  | _ => 0

/-- `Math.abs(hour - 12)` for a well-timed entry. -/
def noonDiff (e : ForecastEntry) : Nat :=
  (hourOf e - 12).natAbs

/-- The entry's hour parses and is a number (not JS `NaN`). -/
def isWellTimed (e : ForecastEntry) : Bool :=
  match entryHour e with
  | .ok (some _) => true
  | _ => false

/-- The `entries.forEach` loop of `renderForecast` that finds the
reading closest to 12:00: `best` is the JS variable `midday`,
`minDiff` is `minDiff` with `none` standing for its initial value
`Infinity` (a `NaN` difference compares `false` against anything, so a
`NaN`-houred entry never becomes `midday`). -/
def middayLoop : ForecastEntry → Option Nat → List ForecastEntry →
    Except Unit (ForecastEntry × Option Nat)
  | best, minDiff, [] => .ok (best, minDiff)
  | best, minDiff, e :: rest =>
    match entryHour e with
    | .error u => .error u
    | .ok none => middayLoop best minDiff rest
    | .ok (some h) =>
      let d := (h - 12).natAbs
      match minDiff with
      | none => middayLoop e (some d) rest
      | some m => if d < m then middayLoop e (some d) rest else middayLoop best minDiff rest

/-- The representative ("midday") sample of a group: JS initialises
`midday = entries[0]` and `minDiff = Infinity` and then scans all
entries. -/
def selectRep (es : List ForecastEntry) : Except Unit ForecastEntry :=
  match middayLoop (es.headD default) none es with
  | .error u => .error u
  | .ok (r, _) => .ok r

/-- The `entries.forEach` loop computing `tempMin`: the accumulator
starts at `Infinity` (`none`); a finite temperature always compares
below `Infinity`. -/
def tempMinFold (acc : Option ℚ) : List ForecastEntry → Option ℚ
  | [] => acc
  | e :: rest =>
    tempMinFold
      (match acc with
       | none => some e.temp_min
       | some m => if e.temp_min < m then some e.temp_min else some m) rest

/-- The `entries.forEach` loop computing `tempMax` (accumulator starts
at `-Infinity`, modelled as `none`). -/
def tempMaxFold (acc : Option ℚ) : List ForecastEntry → Option ℚ
  | [] => acc
  | e :: rest =>
    tempMaxFold
      (match acc with
       | none => some e.temp_max
       | some m => if m < e.temp_max then some e.temp_max else some m) rest

/-- The daily entry pushed for one group: the representative sample
spread together with the group's `tempMin`/`tempMax`. -/
structure DailyForecast where
  rep : ForecastEntry
  tempMin : ℚ
  tempMax : ℚ
  deriving Repr, DecidableEq

/-- Build the `DailyForecast` for one day group, in source order: find
the midday reading first (this can throw), then fold the bounds.  The
`getD 0` arms are unreachable for the nonempty groups the grouping
phase produces. -/
def mkDaily (es : List ForecastEntry) : Except Unit DailyForecast :=
  match middayLoop (es.headD default) none es with
  | .error u => .error u
  | .ok (mid, _) => .ok ⟨mid, (tempMinFold none es).getD 0, (tempMaxFold none es).getD 0⟩

/-- `dailyMap[dateKey].push(entry)` with on-demand creation of the
bucket: an insertion-ordered association list.  (The JS object's keys
are date strings containing `-`, which are not array indices, so
`Object.keys` enumerates them in insertion order.) -/
def insertEntry : List (String × List ForecastEntry) → String → ForecastEntry →
    List (String × List ForecastEntry)
  | [], k, e => [(k, [e])]
  | (k', es) :: rest, k, e =>
    if k' = k then (k', es ++ [e]) :: rest else (k', es) :: insertEntry rest k e

/-- The grouping phase of `renderForecast`: `data.list.forEach`
filling `dailyMap`. -/
def groupByDate (l : List ForecastEntry) : List (String × List ForecastEntry) :=
  l.foldl (fun m e => insertEntry m (dateKey e) e) []

/-- The `Object.keys(dailyMap).forEach` loop: skip today's group, skip
everything once 5 entries have been pushed, otherwise build and push
the day's entry. -/
def processGroups (todayKey : String) :
    List (String × List ForecastEntry) → List DailyForecast →
    Except Unit (List DailyForecast)
  | [], acc => .ok acc
  | (k, es) :: rest, acc =>
    if k = todayKey then processGroups todayKey rest acc
    else if 5 ≤ acc.length then processGroups todayKey rest acc
    else
      match mkDaily es with
      | .error u => .error u
      | .ok df => processGroups todayKey rest (acc ++ [df])

/-- Every group produced by the grouping phase is nonempty and
homogeneous: all entries of a bucket have the bucket's date key. -/
def goodGroups (gs : List (String × List ForecastEntry)) : Prop :=
  ∀ p ∈ gs, p.2 ≠ [] ∧ ∀ e ∈ p.2, dateKey e = p.1

/-- Aggregation over well-formed samples: group by date, then process
the groups in insertion order.  `todayKey` models
`new Date().toISOString().split("T")[0]`. -/
def aggregateForecast (entries : List ForecastEntry) (todayKey : String) :
    Except Unit (List DailyForecast) :=
  processGroups todayKey (groupByDate entries) []

/-- The grouping loop reads `entry.dt_txt.split(" ")` on every sample,
so a sample whose `dt_txt` is missing makes the whole of
`renderForecast` throw a `TypeError` before anything is produced. -/
def extractEntries : List RawEntry → Except Unit (List ForecastEntry)
  | [] => .ok []
  | r :: rest =>
    match r.dt_txt with
    | none => .error ()
    | some s =>
      match extractEntries rest with
      | .error u => .error u
      | .ok es => .ok (⟨s, r.temp_min, r.temp_max⟩ :: es)

/-- `renderForecast` from `js/ui.js` as a function from the payload's
sample list (and today's date key) to the list of daily forecast
entries it renders, or an error when the code throws. -/
def renderForecast (data : List RawEntry) (todayKey : String) :
    Except Unit (List DailyForecast) :=
  match extractEntries data with
  | .error u => .error u
  | .ok entries => aggregateForecast entries todayKey

/-! ## Alert evaluator (`js/ui.js`, `checkWeatherAlert`) -/

/-- A JS number as used for the temperature: a finite value, `NaN`, or
an infinity.  Finite doubles are totally ordered and embed in `ℚ`;
only `<`/`>` comparisons are performed, so this captures the IEEE-754
behaviour exactly. -/
inductive JSNum where
  | nan
  | posInf
  | negInf
  | num (q : ℚ)
  deriving Repr, DecidableEq

/-- IEEE-754 `<` as JS evaluates it: any comparison involving `NaN` is
`false`. -/
def jsLt : JSNum → JSNum → Bool
  | .nan, _ => false
  | _, .nan => false
  | .negInf, .negInf => false
  | .negInf, _ => true
  | _, .negInf => false
  | .posInf, _ => false
  | .num _, .posInf => true
  | .num a, .num b => decide (a < b)

/-- JS `a > b`, i.e. `b < a`. -/
def jsGt (a b : JSNum) : Bool := jsLt b a

/-- The three alert states the banner can be in: hidden (`none`), the
heat warning, or the cold warning (`js/ui.js` shows the banner and
sets its message/background accordingly). -/
inductive AlertState where
  | heat
  | cold
  | none
  deriving Repr, DecidableEq

/-- `checkWeatherAlert` from `js/ui.js`: `tempCelsius > 40` shows the
heat warning, otherwise `tempCelsius < -20` shows the cold warning,
otherwise the banner is hidden. -/
def checkWeatherAlert (tempCelsius : JSNum) : AlertState :=
  if jsGt tempCelsius (.num 40) then .heat
  else if jsLt tempCelsius (.num (-20)) then .cold
  else .none

/-! ## Background classifier (`js/ui.js`, `updateBackground`) -/

/-- Which particle overlay `updateBackground` creates. -/
inductive ParticleEffect where
  | rain
  | snow
  | none
  deriving Repr, DecidableEq

/-- JS `String.prototype.endsWith`: the string's final characters
equal the argument. -/
def jsEndsWith (s post : String) : Bool :=
  decide (s.data.reverse.take post.data.length = post.data.reverse)

/-- `const isNight = icon && icon.endsWith("n")`: an empty icon string
is falsy, so `isNight` is falsy for it. -/
def isNightIcon (icon : String) : Bool :=
  (!(icon = "")) && jsEndsWith icon "n"

/-- The condition keys present in `classMap` as own properties. -/
def knownConds : List String :=
  ["clear", "clouds", "rain", "drizzle", "thunderstorm", "snow",
   "mist", "fog", "haze", "smoke"]

/-- The standard inherited properties of `Object.prototype`.  `classMap`
is a plain object literal, so the bracket lookup
`classMap[conditionLower]` traverses the prototype chain: a key that
misses every own key but names one of these yields the inherited
member — a function, or for `__proto__` the prototype object — which
is truthy and not a string. -/
def objectProtoProps : List String :=
  ["constructor", "hasOwnProperty", "isPrototypeOf", "propertyIsEnumerable",
   "toLocaleString", "toString", "valueOf", "__defineGetter__",
   "__defineSetter__", "__lookupGetter__", "__lookupSetter__", "__proto__"]

/-- The possible results of the JS bracket lookup `classMap[key]`: an
own-property string value, a truthy non-string member inherited from
`Object.prototype`, or `undefined` (falsy). -/
inductive JSProp where
  | strVal (s : String)
  | protoTruthy
  | absent
  deriving Repr, DecidableEq

/-- The lookup `classMap[conditionLower]` of `updateBackground`,
prototype chain included: the ten own keys of the object literal give
their string values; the `Object.prototype` member names give the
inherited truthy non-string; everything else is `undefined`. -/
def classMapLookup (conditionLower : String) (isNight : Bool) : JSProp :=
  if conditionLower = "clear" then
    .strVal (if isNight then "weather-clear-night" else "weather-clear")
  else if conditionLower = "clouds" then .strVal "weather-clouds"
  else if conditionLower = "rain" then .strVal "weather-rain"
  else if conditionLower = "drizzle" then .strVal "weather-drizzle"
  else if conditionLower = "thunderstorm" then .strVal "weather-thunderstorm"
  else if conditionLower = "snow" then .strVal "weather-snow"
  else if conditionLower = "mist" then .strVal "weather-mist"
  else if conditionLower = "fog" then .strVal "weather-fog"
  else if conditionLower = "haze" then .strVal "weather-haze"
  else if conditionLower = "smoke" then .strVal "weather-smoke"
  else if objectProtoProps.contains conditionLower then .protoTruthy
  else .absent

/-- The particle overlay created for a lowercased condition
(`createRainEffect` for rain/drizzle/thunderstorm, `createSnowEffect`
for snow, none otherwise). -/
def particleFor (conditionLower : String) : ParticleEffect :=
  if ["rain", "drizzle", "thunderstorm"].contains conditionLower then .rain
  else if conditionLower = "snow" then .snow
  else .none

/-- `updateBackground` from `js/ui.js`: the CSS class added to the body
is `classMap[conditionLower] || "weather-default"`, and the particle
overlay is created afterwards.  When the lookup finds an inherited
`Object.prototype` member, the truthy non-string survives the `||`
fallback and `body.classList.add` throws an `InvalidCharacterError`
(its stringification — `"function …"` or `"[object Object]"` —
contains spaces), so no theme is applied and no particle overlay is
created; modelled as `Except.error ()`. -/
def updateBackground (condition icon : String) :
    Except Unit (String × ParticleEffect) :=
  let isNight := isNightIcon icon
  let conditionLower := jsToLower condition
  match classMapLookup conditionLower isNight with
  | .strVal s => .ok (s, particleFor conditionLower)
  | .protoTruthy => .error ()
  | .absent => .ok ("weather-default", particleFor conditionLower)

/-! ## Lookup orchestrator (`js/app.js`, `searchByCity`) -/

/-- The fields of the current-conditions payload the orchestration
logic itself consumes; the many display-only fields rendered by
`renderCurrentWeather` are omitted.  `name` is what
`Storage.addRecentCity` receives. -/
structure CurrentData where
  name : String
  deriving Repr, DecidableEq

/-- `Promise.all([p1, p2])`: succeeds with both values when both
fulfil, and otherwise rejects with the reason of the first promise to
reject in event (settle) order.  `secondFirst` records whether the
second promise settles before the first — only observable when both
reject. -/
def promiseAll2 {α β : Type} :
    Except String α → Except String β → Bool → Except String (α × β)
  | .ok a, .ok b, _ => .ok (a, b)
  | .error e, .ok _, _ => .error e
  | .ok _, .error e, _ => .error e
  | .error e₁, .error e₂, secondFirst => .error (if secondFirst then e₂ else e₁)

/-- `Except.isOk` written out, to keep the statements self-contained. -/
def exceptIsOk {ε α : Type} : Except ε α → Bool
  | .ok _ => true
  | .error _ => false

/-- The user-observable outcome of one `searchByCity` call: the error
toast shown (if any), the current-conditions card rendered (if any),
the forecast cards rendered (if any), and the recent-city list after
the call. -/
structure LookupView where
  errorToast : Option String
  renderedCurrent : Option CurrentData
  renderedForecast : Option (List DailyForecast)
  recent : List String
  deriving Repr, DecidableEq

/-- `searchByCity` from `js/app.js` as a function of the outcomes of
the two retrievals: validate first (an invalid input only shows the
validation error), join the two fetches with `Promise.all`, then
render the current conditions, render the forecast (which may throw —
caught by the same `catch`, leaving the already-rendered current
conditions in place), and only on full success record the resolved
city name.  `fcFirst` is the settle order passed to `promiseAll2`;
`todayKey` is today's date key. -/
def searchByCity (input : String) (cur : Except String CurrentData)
    (fc : Except String (List RawEntry)) (fcFirst : Bool)
    (todayKey : String) (prior : List String) : LookupView :=
  let validation := validateCityInput input
  if validation.valid then
    match promiseAll2 cur fc fcFirst with
    | .error e => ⟨some e, Option.none, Option.none, prior⟩
    | .ok (c, f) =>
      match renderForecast f todayKey with
      | .error _ => ⟨some "TypeError", some c, Option.none, prior⟩
      | .ok dfs => ⟨Option.none, some c, some dfs, addRecentCity (.str c.name) prior⟩
  else
    ⟨validation.error, Option.none, Option.none, prior⟩

/-! ## Concrete inputs used by witnesses and counterexamples -/

/-- A day group with hourly offsets 09:00, 12:00, 15:00 (the spec's
aggregator example). -/
def exC1 : List ForecastEntry :=
  [⟨"2099-01-02 09:00:00", 10, 20⟩,
   ⟨"2099-01-02 12:00:00", 8, 22⟩,
   ⟨"2099-01-02 15:00:00", 12, 19⟩]

/-- A day group with `temp_min` values 10, 8, 12 and `temp_max` values
20, 22, 19 (the spec's extrema example). -/
def exC2 : List ForecastEntry :=
  [⟨"2099-01-02 09:00:00", 10, 20⟩,
   ⟨"2099-01-02 12:00:00", 8, 22⟩,
   ⟨"2099-01-02 15:00:00", 12, 19⟩]

/-- Samples spanning today (2099-01-01) plus 5 future days, two
3-hour-grid samples per day. -/
def entsC3 : List ForecastEntry :=
  [⟨"2099-01-01 09:00:00", 1, 2⟩, ⟨"2099-01-01 12:00:00", 1, 3⟩,
   ⟨"2099-01-02 09:00:00", 4, 9⟩, ⟨"2099-01-02 12:00:00", 5, 8⟩,
   ⟨"2099-01-03 09:00:00", 2, 7⟩, ⟨"2099-01-03 12:00:00", 3, 6⟩,
   ⟨"2099-01-04 09:00:00", 0, 5⟩, ⟨"2099-01-04 12:00:00", 1, 4⟩,
   ⟨"2099-01-05 09:00:00", 6, 9⟩, ⟨"2099-01-05 12:00:00", 7, 8⟩,
   ⟨"2099-01-06 09:00:00", 2, 3⟩, ⟨"2099-01-06 12:00:00", 1, 5⟩]

/-- The aggregation of `entsC3` with today = 2099-01-01. -/
def outC3 : List DailyForecast :=
  [⟨⟨"2099-01-02 12:00:00", 5, 8⟩, 4, 9⟩,
   ⟨⟨"2099-01-03 12:00:00", 3, 6⟩, 2, 7⟩,
   ⟨⟨"2099-01-04 12:00:00", 1, 4⟩, 0, 5⟩,
   ⟨⟨"2099-01-05 12:00:00", 7, 8⟩, 6, 9⟩,
   ⟨⟨"2099-01-06 12:00:00", 1, 5⟩, 1, 5⟩]

/-- Two well-formed samples whose dates appear out of chronological
order in the input sequence. -/
def entsC3bad : List ForecastEntry :=
  [⟨"2099-01-03 12:00:00", 1, 2⟩, ⟨"2099-01-02 12:00:00", 3, 4⟩]

end SkyView

/-! # Theorems -/

namespace SkyView

/-! ## Shared lemmas -/

theorem utf16Len_eq_zero {s : String} (h : utf16Len s = 0) : s = "" := by
  cases s with
  | mk data =>
    cases data with
    | nil => rfl
    | cons c cs =>
      exfalso
      have hsum : utf16Len ⟨c :: cs⟩ =
          (if c.toNat < 0x10000 then 1 else 2) +
            (cs.map (fun c => if c.toNat < 0x10000 then 1 else 2)).sum := by
        simp [utf16Len]
      rw [hsum] at h
      split at h <;> omega

/-! ## Claim C7 — alert evaluator -/

/-- Claim C7: the alert evaluator is total over all JS numbers
(including `NaN`, which yields the hidden state rather than throwing),
returns the heat warning exactly when the temperature compares above
40 (a finite value above 40, or `+Infinity`), the cold warning exactly
when it compares below −20, and both boundaries are exclusive:
`evaluate 40`, `evaluate (-20)` and `evaluate NaN` are all `none`. -/
theorem c7_alert_evaluator :
    (∀ t : JSNum,
      (checkWeatherAlert t = AlertState.heat ↔
        ((∃ q : ℚ, t = JSNum.num q ∧ 40 < q) ∨ t = JSNum.posInf)) ∧
      (checkWeatherAlert t = AlertState.cold ↔
        ((∃ q : ℚ, t = JSNum.num q ∧ q < -20) ∨ t = JSNum.negInf))) ∧
    checkWeatherAlert JSNum.nan = AlertState.none ∧
    checkWeatherAlert (JSNum.num 40) = AlertState.none ∧
    checkWeatherAlert (JSNum.num (-20)) = AlertState.none ∧
    checkWeatherAlert (JSNum.num 41) = AlertState.heat ∧
    checkWeatherAlert (JSNum.num (-21)) = AlertState.cold ∧
    checkWeatherAlert (JSNum.num 20) = AlertState.none := by
  refine ⟨?_, by decide, by decide, by decide, by decide, by decide, by decide⟩
  intro t
  cases t with
  | nan => constructor <;> simp [checkWeatherAlert, jsGt, jsLt]
  | posInf => constructor <;> simp [checkWeatherAlert, jsGt, jsLt]
  | negInf => constructor <;> simp [checkWeatherAlert, jsGt, jsLt]
  | num q =>
    by_cases h1 : (40 : ℚ) < q <;> by_cases h2 : q < (-20 : ℚ)
    all_goals constructor <;> simp [checkWeatherAlert, jsGt, jsLt, h1, h2]
    all_goals linarith

/-! ## Claim C8 — condition classifier -/

theorem exceptOkPair_inj {a th : String} {b p : ParticleEffect}
    (h : (Except.ok (a, b) : Except Unit (String × ParticleEffect)) = Except.ok (th, p)) :
    th = a ∧ p = b := by
  injection h with h2
  injection h2 with h3 h4
  exact ⟨h3.symm, h4.symm⟩

/-- A key naming an `Object.prototype` member misses every own key of
`classMap` (the two sets are disjoint) and finds the inherited truthy
non-string. -/
theorem classMapLookup_proto (cl : String) (n : Bool) (hp : cl ∈ objectProtoProps) :
    classMapLookup cl n = JSProp.protoTruthy := by
  have k1 : ¬ cl = "clear" := by rintro rfl; revert hp; decide
  have k2 : ¬ cl = "clouds" := by rintro rfl; revert hp; decide
  have k3 : ¬ cl = "rain" := by rintro rfl; revert hp; decide
  have k4 : ¬ cl = "drizzle" := by rintro rfl; revert hp; decide
  have k5 : ¬ cl = "thunderstorm" := by rintro rfl; revert hp; decide
  have k6 : ¬ cl = "snow" := by rintro rfl; revert hp; decide
  have k7 : ¬ cl = "mist" := by rintro rfl; revert hp; decide
  have k8 : ¬ cl = "fog" := by rintro rfl; revert hp; decide
  have k9 : ¬ cl = "haze" := by rintro rfl; revert hp; decide
  have k10 : ¬ cl = "smoke" := by rintro rfl; revert hp; decide
  have k11 : objectProtoProps.contains cl = true := by
    simp only [List.contains, List.elem_eq_mem, decide_eq_true_eq]
    exact hp
  unfold classMapLookup
  rw [if_neg k1, if_neg k2, if_neg k3, if_neg k4, if_neg k5, if_neg k6, if_neg k7,
    if_neg k8, if_neg k9, if_neg k10, if_pos k11]

/-- A key that is neither an own key of `classMap` nor an
`Object.prototype` member name looks up as `undefined`. -/
theorem classMapLookup_absent (cl : String) (n : Bool) (hk : cl ∉ knownConds)
    (hp : cl ∉ objectProtoProps) : classMapLookup cl n = JSProp.absent := by
  have k1 : ¬ cl = "clear" := by rintro rfl; exact hk (by decide)
  have k2 : ¬ cl = "clouds" := by rintro rfl; exact hk (by decide)
  have k3 : ¬ cl = "rain" := by rintro rfl; exact hk (by decide)
  have k4 : ¬ cl = "drizzle" := by rintro rfl; exact hk (by decide)
  have k5 : ¬ cl = "thunderstorm" := by rintro rfl; exact hk (by decide)
  have k6 : ¬ cl = "snow" := by rintro rfl; exact hk (by decide)
  have k7 : ¬ cl = "mist" := by rintro rfl; exact hk (by decide)
  have k8 : ¬ cl = "fog" := by rintro rfl; exact hk (by decide)
  have k9 : ¬ cl = "haze" := by rintro rfl; exact hk (by decide)
  have k10 : ¬ cl = "smoke" := by rintro rfl; exact hk (by decide)
  have k11 : ¬ objectProtoProps.contains cl = true := by
    simp only [List.contains, List.elem_eq_mem, decide_eq_true_eq]
    exact hp
  unfold classMapLookup
  rw [if_neg k1, if_neg k2, if_neg k3, if_neg k4, if_neg k5, if_neg k6, if_neg k7,
    if_neg k8, if_neg k9, if_neg k10, if_neg k11]

/-- A condition outside the lookup table gets no particle overlay (the
rain and snow trigger sets are subsets of the table's keys). -/
theorem particleFor_of_not_known (cl : String) (hk : cl ∉ knownConds) :
    particleFor cl = ParticleEffect.none := by
  have h1 : ¬ ((["rain", "drizzle", "thunderstorm"] : List String).contains cl = true) := by
    simp only [List.contains, List.elem_eq_mem, decide_eq_true_eq]
    intro hmem
    simp only [List.mem_cons, List.not_mem_nil, or_false] at hmem
    rcases hmem with rfl | rfl | rfl <;> exact hk (by decide)
  have h2 : ¬ cl = "snow" := by rintro rfl; exact hk (by decide)
  unfold particleFor
  rw [if_neg h1, if_neg h2]

/-- Counterexample to claim C8: the condition `"Constructor"` is not
in the lookup table (its lowercase form is not a `classMap` own key),
yet it does not map to the default theme — the bracket lookup finds
the inherited `Object.prototype.constructor`, which is truthy, so the
`|| "weather-default"` fallback is bypassed and `classList.add` of the
non-string throws: classification fails instead of falling back. -/
theorem c8_cex :
    updateBackground "Constructor" "01d" = .error () ∧
    jsToLower "Constructor" ∉ knownConds :=
  ⟨by decide, by decide⟩

/-- Claim C8 (amended): the night icon marker selects a night variant
only for the `clear` condition; conditions are matched
case-insensitively (the code lowercases before the lookup).  Whenever
classification succeeds, the theme is `weather-clear-night` exactly
for clear-and-night, the default theme appears exactly for conditions
outside the lookup table, and the particle effect is rain exactly for
rain/drizzle/thunderstorm, snow exactly for snow, none otherwise.
But classification is not total: it fails (throws) exactly when the
lowercased condition names an inherited `Object.prototype` member
(e.g. `constructor`, `__proto__`), because the object-literal lookup
traverses the prototype chain and the truthy non-string result
bypasses the `|| "weather-default"` fallback before `classList.add`
rejects it.  The spec's three examples are included. -/
theorem c8_amended_classifier :
    (∀ condition icon : String,
      (updateBackground condition icon = .error () ↔
        jsToLower condition ∈ objectProtoProps) ∧
      (∀ th p, updateBackground condition icon = .ok (th, p) →
        (th = "weather-clear-night" ↔
          jsToLower condition = "clear" ∧ isNightIcon icon = true) ∧
        (th = "weather-default" ↔ jsToLower condition ∉ knownConds) ∧
        (p = ParticleEffect.rain ↔
          (jsToLower condition = "rain" ∨ jsToLower condition = "drizzle" ∨
           jsToLower condition = "thunderstorm")) ∧
        (p = ParticleEffect.snow ↔ jsToLower condition = "snow"))) ∧
    updateBackground "Clear" "01n" = .ok ("weather-clear-night", ParticleEffect.none) ∧
    updateBackground "Rain" "10d" = .ok ("weather-rain", ParticleEffect.rain) ∧
    updateBackground "Tornado" "01d" = .ok ("weather-default", ParticleEffect.none) := by
  refine ⟨?_, by decide, by decide, by decide⟩
  intro condition icon
  simp only [updateBackground]
  generalize jsToLower condition = cl
  generalize isNightIcon icon = n
  by_cases hk : cl ∈ knownConds
  · have hk2 : cl = "clear" ∨ cl = "clouds" ∨ cl = "rain" ∨ cl = "drizzle" ∨
        cl = "thunderstorm" ∨ cl = "snow" ∨ cl = "mist" ∨ cl = "fog" ∨
        cl = "haze" ∨ cl = "smoke" := by
      simpa [knownConds] using hk
    clear hk
    rcases hk2 with rfl | rfl | rfl | rfl | rfl | rfl | rfl | rfl | rfl | rfl <;>
      cases n <;>
      exact ⟨by decide, fun th p h => by
        obtain ⟨rfl, rfl⟩ := exceptOkPair_inj h
        decide⟩
  · by_cases hp : cl ∈ objectProtoProps
    · rw [classMapLookup_proto cl n hp]
      refine ⟨⟨fun _ => hp, fun _ => rfl⟩, ?_⟩
      intro th p h
      exact Except.noConfusion h
    · rw [classMapLookup_absent cl n hk hp]
      refine ⟨⟨fun h => Except.noConfusion h, fun h => absurd h hp⟩, ?_⟩
      intro th p h
      obtain ⟨rfl, rfl⟩ := exceptOkPair_inj h
      have hpf : particleFor cl = ParticleEffect.none := particleFor_of_not_known cl hk
      refine ⟨⟨fun h2 => absurd h2 (by decide), ?_⟩, ⟨fun _ => hk, fun _ => rfl⟩, ?_, ?_⟩
      · rintro ⟨rfl, -⟩
        exact absurd (by decide : ("clear" : String) ∈ knownConds) hk
      · rw [hpf]
        constructor
        · intro h2
          exact absurd h2 (by decide)
        · rintro (rfl | rfl | rfl) <;> exact absurd (by decide) hk
      · rw [hpf]
        constructor
        · intro h2
          exact absurd h2 (by decide)
        · rintro rfl
          exact absurd (by decide) hk

/-! ## Claim C10 — blank or non-string input leaves storage unchanged -/

/-- Claim C10: `addRecentCity` leaves the stored list entirely
unchanged when its argument is not a string, or is a string that trims
to the empty string. -/
theorem c10_blank_or_nonstring_noop (prior : List String) (s : String)
    (h : jsTrim s = "") :
    addRecentCity JSVal.nonString prior = prior ∧
    addRecentCity (JSVal.str s) prior = prior := by
  refine ⟨rfl, ?_⟩
  unfold addRecentCity
  by_cases hs : s = ""
  · simp [hs]
  · have h0 : utf16Len (jsTrim s) = 0 := by rw [h]; rfl
    simp [hs, h0]

/-- Witness for C10 at a whitespace-only input. -/
theorem c10_witness :
    addRecentCity JSVal.nonString ["Oslo"] = ["Oslo"] ∧
    addRecentCity (JSVal.str "   ") ["Oslo"] = ["Oslo"] :=
  c10_blank_or_nonstring_noop ["Oslo"] "   " (by decide)

/-! ## Claim C5 — input validator -/

/-- Counterexample to claim C5: the validator accepts `"A×B"`, even
though `×` (U+00D7, the multiplication sign) is a symbol — not a
letter, space, hyphen, apostrophe, period or comma — because the
regex range `À-ÿ` covers the whole block U+00C0–U+00FF, which contains
the two non-letters `×` and `÷`.  The claim says every symbol is
rejected with "invalid characters". -/
theorem c5_cex :
    validateCityInput "A×B" = ⟨true, "A×B", Option.none⟩ ∧
    '×' ∈ "A×B".data ∧ claimAllowedChar '×' = false :=
  ⟨by decide, by decide, by decide⟩

/-- Claim C5 (amended): `validateCityInput` trims JS whitespace, then
rejects an empty trimmed string ("Please enter a city name.", the
spec's "empty input"), a trimmed UTF-16 length of 1 ("... at least 2
characters.", "too short"), a trimmed length above 100 ("... too
long.", "too long"); otherwise it accepts exactly the strings all of
whose characters lie in the code's allow-list `validCityChar` — ASCII
letters, the whole Latin-1 block U+00C0–U+00FF (which includes the
non-letter symbols `×` and `÷`), JS whitespace, hyphen, apostrophe,
period and comma — returning the trimmed string, and rejects the rest
("... can only contain letters, ...", "invalid characters").  Letters
outside U+00C0–U+00FF (e.g. `Ā`) are rejected, although they are
accented Latin letters. -/
theorem c5_amended_validator (raw : String) :
    (jsTrim raw = "" →
      validateCityInput raw = ⟨false, "", some "Please enter a city name."⟩) ∧
    (utf16Len (jsTrim raw) = 1 →
      validateCityInput raw =
        ⟨false, jsTrim raw, some "City name must be at least 2 characters."⟩) ∧
    (100 < utf16Len (jsTrim raw) →
      validateCityInput raw = ⟨false, jsTrim raw, some "City name is too long."⟩) ∧
    (2 ≤ utf16Len (jsTrim raw) → utf16Len (jsTrim raw) ≤ 100 →
      ((jsTrim raw).data.all validCityChar = true →
        validateCityInput raw = ⟨true, jsTrim raw, Option.none⟩) ∧
      ((jsTrim raw).data.all validCityChar = false →
        validateCityInput raw =
          ⟨false, jsTrim raw,
           some "City name can only contain letters, spaces, hyphens, and apostrophes."⟩)) := by
  refine ⟨?_, ?_, ?_, ?_⟩
  · intro h
    simp [validateCityInput, h, show utf16Len "" = 0 from rfl]
  · intro h1
    simp [validateCityInput, h1]
  · intro h100
    have hne : utf16Len (jsTrim raw) ≠ 0 := by omega
    have hge : ¬ utf16Len (jsTrim raw) < 2 := by omega
    simp [validateCityInput, hne, hge, h100]
  · intro hge2 hle100
    have hne : utf16Len (jsTrim raw) ≠ 0 := by omega
    have hlt : ¬ utf16Len (jsTrim raw) < 2 := by omega
    have hgt : ¬ utf16Len (jsTrim raw) > 100 := by omega
    constructor
    · intro hall
      simp [validateCityInput, hne, hlt, hgt, hall]
    · intro hall
      simp [validateCityInput, hne, hlt, hgt, hall]

/-- Witness for C5 at the spec's accepted example "São Paulo". -/
theorem c5_witness :
    validateCityInput "São Paulo" = ⟨true, "São Paulo", Option.none⟩ :=
  ((c5_amended_validator "São Paulo").2.2.2 (by decide) (by decide)).1 (by decide)

/-! ## Claim C9 — recent-city list invariants -/

/-- Counterexample to claim C9: on the prior stored list `["A", "a"]`
(which itself contains a case-insensitive duplicate), adding `"B"`
yields `["B", "A", "a"]`, which still contains two entries equal under
case-insensitive comparison — `addRecentCity` only de-duplicates
against the city being added, so the claimed invariant does not hold
after the operation on an arbitrary prior stored list. -/
theorem c9_cex :
    addRecentCity (JSVal.str "B") ["A", "a"] = ["B", "A", "a"] ∧
    ¬ CaseDistinct ["B", "A", "a"] :=
  ⟨by decide, by decide⟩

/-- Claim C9 (amended): after `addRecentCity` with a non-blank string
on any prior stored list, the list has length at most 5 and the
trimmed new city is first; the no-case-insensitive-duplicate property
is preserved, i.e. holds after the operation provided the prior list
already satisfied it (as every list built by `addRecentCity` from the
empty list does) — but it is not re-established on an arbitrary prior
list. -/
theorem c9_amended_recent_list (prior : List String) (s : String)
    (h : jsTrim s ≠ "") :
    (addRecentCity (JSVal.str s) prior).length ≤ 5 ∧
    (addRecentCity (JSVal.str s) prior).headD "" = jsTrim s ∧
    (CaseDistinct prior → CaseDistinct (addRecentCity (JSVal.str s) prior)) := by
  have hs : s ≠ "" := by
    intro e
    exact h (by rw [e]; rfl)
  have h0 : ¬ utf16Len (jsTrim s) = 0 := fun e => h (utf16Len_eq_zero e)
  have hred : addRecentCity (JSVal.str s) prior =
      (if (jsTrim s :: prior.filter (fun c => jsToLower c ≠ jsToLower (jsTrim s))).length > 5
       then (jsTrim s :: prior.filter (fun c => jsToLower c ≠ jsToLower (jsTrim s))).take 5
       else jsTrim s :: prior.filter (fun c => jsToLower c ≠ jsToLower (jsTrim s))) := by
    simp [addRecentCity, hs, h0]
  rw [hred]
  set l := jsTrim s :: prior.filter (fun c => jsToLower c ≠ jsToLower (jsTrim s)) with hl
  refine ⟨?_, ?_, ?_⟩
  · split
    · simp [List.length_take_le 5 l]
    · omega
  · split
    · rw [hl]
      rfl
    · rw [hl]
      rfl
  · intro hp
    have hfil : CaseDistinct (prior.filter (fun c => jsToLower c ≠ jsToLower (jsTrim s))) :=
      List.Pairwise.sublist (List.filter_sublist prior) hp
    have hcons : CaseDistinct l := by
      rw [hl]
      refine List.pairwise_cons.mpr ⟨?_, hfil⟩
      intro b hb
      have := (List.mem_filter.mp hb).2
      have hne : jsToLower b ≠ jsToLower (jsTrim s) := by
        simpa using this
      exact fun e => hne e.symm
    split
    · exact List.Pairwise.sublist (List.take_sublist 5 l) hcons
    · exact hcons

/-- Witness for C9: the spec's example sequence Paris, paris, London
starting from the empty list yields ["London", "paris"], and the
amended theorem instantiated at the final step. -/
theorem c9_witness :
    addRecentCity (JSVal.str "London")
        (addRecentCity (JSVal.str "paris") (addRecentCity (JSVal.str "Paris") [])) =
      ["London", "paris"] ∧
    ((addRecentCity (JSVal.str "London") ["paris"]).length ≤ 5 ∧
     (addRecentCity (JSVal.str "London") ["paris"]).headD "" = jsTrim "London" ∧
     (CaseDistinct ["paris"] → CaseDistinct (addRecentCity (JSVal.str "London") ["paris"]))) :=
  ⟨by decide, c9_amended_recent_list ["paris"] "London" (by decide)⟩

/-! ## Claim C4 — lookup failure handling -/

/-- Counterexample to claim C4: when both retrievals fail and the
forecast promise rejects first, `Promise.all` rejects with the
forecast error, so the reported error is the forecast error, not the
current-conditions error — the claimed fixed precedence of the
current-conditions error does not hold. -/
theorem c4_cex :
    searchByCity "Paris" (.error "current failed") (.error "forecast failed") true
        "2099-01-01" [] =
      ⟨some "forecast failed", Option.none, Option.none, []⟩ ∧
    ("forecast failed" : String) ≠ "current failed" :=
  ⟨by decide, by decide⟩

/-- Claim C4 (amended): for a lookup whose input passes validation, if
either retrieval fails then the lookup as a whole fails with exactly
one reported error and no partial result — neither current conditions
nor any forecast entry is rendered, and the recent-city list is
untouched.  The reported error is one of the two retrieval errors:
when only one retrieval fails it is that retrieval's error, and when
both fail it is the error of whichever promise rejects first in settle
order (`fcFirst`), not necessarily the current-conditions error. -/
theorem c4_amended_join_failure (input : String) (cur : Except String CurrentData)
    (fc : Except String (List RawEntry)) (fcFirst : Bool) (todayKey : String)
    (prior : List String)
    (hv : (validateCityInput input).valid = true)
    (hfail : exceptIsOk cur = false ∨ exceptIsOk fc = false) :
    ∃ e, searchByCity input cur fc fcFirst todayKey prior =
        ⟨some e, Option.none, Option.none, prior⟩ ∧
      (cur = .error e ∨ fc = .error e) ∧
      (∀ c, cur = .ok c → ∀ ef, fc = .error ef → e = ef) ∧
      (∀ f, fc = .ok f → ∀ ec, cur = .error ec → e = ec) ∧
      (∀ ec ef, cur = .error ec → fc = .error ef →
        e = if fcFirst then ef else ec) := by
  cases cur with
  | ok c =>
    cases fc with
    | ok f =>
      exfalso
      rcases hfail with h | h <;> simp [exceptIsOk] at h
    | error ef =>
      refine ⟨ef, ?_, Or.inr rfl, ?_, ?_, ?_⟩
      · simp [searchByCity, hv, promiseAll2]
      · intro c2 hc2 ef2 hef2
        cases hef2
        rfl
      · intro f hf
        cases hf
      · intro ec ef2 hec
        cases hec
  | error ec =>
    cases fc with
    | ok f =>
      refine ⟨ec, ?_, Or.inl rfl, ?_, ?_, ?_⟩
      · simp [searchByCity, hv, promiseAll2]
      · intro c2 hc2
        cases hc2
      · intro f2 hf2 ec2 hec2
        cases hec2
        rfl
      · intro ec2 ef2 hec2 hef2
        cases hef2
    | error ef =>
      refine ⟨if fcFirst then ef else ec, ?_, ?_, ?_, ?_, ?_⟩
      · simp [searchByCity, hv, promiseAll2]
      · cases fcFirst with
        | false => exact Or.inl (by simp)
        | true => exact Or.inr (by simp)
      · intro c2 hc2
        cases hc2
      · intro f2 hf2
        cases hf2
      · intro ec2 ef2 hec2 hef2
        cases hec2
        cases hef2
        rfl

/-- Witness for C4: current conditions fail, forecast succeeds — the
reported error is the current-conditions error and nothing is
rendered. -/
theorem c4_witness :
    ∃ e, searchByCity "Paris" (.error "city not found") (.ok []) false "2099-01-01" [] =
        ⟨some e, Option.none, Option.none, []⟩ ∧
      ((.error "city not found" : Except String CurrentData) = .error e ∨
        (.ok [] : Except String (List RawEntry)) = .error e) ∧
      (∀ c, (.error "city not found" : Except String CurrentData) = .ok c →
        ∀ ef, (.ok [] : Except String (List RawEntry)) = .error ef → e = ef) ∧
      (∀ f, (.ok [] : Except String (List RawEntry)) = .ok f →
        ∀ ec, (.error "city not found" : Except String CurrentData) = .error ec → e = ec) ∧
      (∀ ec ef, (.error "city not found" : Except String CurrentData) = .error ec →
        (.ok [] : Except String (List RawEntry)) = .error ef →
        e = if false then ef else ec) :=
  c4_amended_join_failure "Paris" (.error "city not found") (.ok []) false
    "2099-01-01" [] (by decide) (Or.inl rfl)

/-! ## Claim C6 — malformed or missing timestamps -/

/-- Counterexample to claim C6: with a missing-timestamp sample
between two well-formed samples, `renderForecast` throws (models the
`TypeError` from `entry.dt_txt.split`) and produces nothing, although
the two well-formed samples alone would have produced two daily
summaries — the malformed sample is not excluded; the whole
aggregation aborts. -/
theorem c6_cex :
    renderForecast
        [⟨some "2099-01-02 12:00:00", 1, 2⟩, ⟨Option.none, 3, 4⟩,
         ⟨some "2099-01-03 12:00:00", 5, 6⟩] "2099-01-01" = .error () ∧
    renderForecast
        [⟨some "2099-01-02 12:00:00", 1, 2⟩, ⟨some "2099-01-03 12:00:00", 5, 6⟩]
        "2099-01-01" =
      .ok [⟨⟨"2099-01-02 12:00:00", 1, 2⟩, 1, 2⟩, ⟨⟨"2099-01-03 12:00:00", 5, 6⟩, 5, 6⟩] :=
  ⟨by decide, by decide⟩

/-- Claim C6 (amended): a sample whose timestamp is missing makes the
whole aggregation fail — the grouping loop reads `dt_txt` of every
sample, so the thrown `TypeError` aborts `renderForecast` instead of
excluding the offending sample. -/
theorem c6_amended_missing_timestamp_aborts (data : List RawEntry) (todayKey : String)
    (hbad : ∃ r ∈ data, r.dt_txt = Option.none) :
    renderForecast data todayKey = .error () := by
  have hex : extractEntries data = .error () := by
    induction data with
    | nil =>
      obtain ⟨r, hr, _⟩ := hbad
      cases hr
    | cons a rest ih =>
      obtain ⟨r, hr, hnone⟩ := hbad
      rcases List.mem_cons.mp hr with rfl | hmem
      · simp [extractEntries, hnone]
      · cases ha : a.dt_txt with
        | none => simp [extractEntries, ha]
        | some s =>
          have := ih ⟨r, hmem, hnone⟩
          simp [extractEntries, ha, this]
  simp [renderForecast, hex]

/-- Witness for C6 at a single missing-timestamp sample. -/
theorem c6_witness :
    renderForecast [⟨Option.none, 3, 4⟩] "2099-01-01" = .error () :=
  c6_amended_missing_timestamp_aborts [⟨Option.none, 3, 4⟩] "2099-01-01"
    ⟨⟨Option.none, 3, 4⟩, List.mem_singleton.mpr rfl, rfl⟩

/-! ## Aggregation lemmas (shared by claims C1, C2, C3) -/

theorem entryHour_of_isWellTimed {e : ForecastEntry} (h : isWellTimed e = true) :
    entryHour e = .ok (some (hourOf e)) := by
  unfold isWellTimed at h
  unfold hourOf
  cases he : entryHour e with
  | error u => simp [he] at h
  | ok o =>
    cases o with
    | none => simp [he] at h
    | some hh => rfl

theorem middayLoop_cons_error {e : ForecastEntry} {rest : List ForecastEntry}
    {best : ForecastEntry} {md : Option Nat} (he : entryHour e = .error ()) :
    middayLoop best md (e :: rest) = .error () := by
  rw [middayLoop, he]

theorem middayLoop_cons_nan {e : ForecastEntry} {rest : List ForecastEntry}
    {best : ForecastEntry} {md : Option Nat} (he : entryHour e = .ok Option.none) :
    middayLoop best md (e :: rest) = middayLoop best md rest := by
  rw [middayLoop, he]

theorem middayLoop_cons_inf {e : ForecastEntry} {rest : List ForecastEntry}
    {best : ForecastEntry} {h : Int} (he : entryHour e = .ok (some h)) :
    middayLoop best Option.none (e :: rest) =
      middayLoop e (some ((h - 12).natAbs)) rest := by
  rw [middayLoop, he]

theorem middayLoop_cons_cmp {e : ForecastEntry} {rest : List ForecastEntry}
    {best : ForecastEntry} {m : Nat} {h : Int} (he : entryHour e = .ok (some h)) :
    middayLoop best (some m) (e :: rest) =
      (if (h - 12).natAbs < m then middayLoop e (some ((h - 12).natAbs)) rest
       else middayLoop best (some m) rest) := by
  rw [middayLoop, he]

/-- Behaviour of the midday-selection loop on a list of well-timed
entries, starting from a best candidate whose difference is already
recorded: the loop succeeds, returns an entry whose noon difference is
minimal among the candidate and the list, and — because only a
strictly smaller difference replaces the candidate — the returned
entry is either the incoming candidate or the first list entry
achieving its difference. -/
theorem middayLoop_spec (l : List ForecastEntry) :
    ∀ best : ForecastEntry, (∀ e ∈ l, isWellTimed e = true) →
    ∃ r d, middayLoop best (some (noonDiff best)) l = .ok (r, some d) ∧
      d = noonDiff r ∧
      (∀ e ∈ l, noonDiff r ≤ noonDiff e) ∧ noonDiff r ≤ noonDiff best ∧
      (r = best ∨ ∃ pre post, l = pre ++ r :: post ∧ noonDiff r < noonDiff best ∧
        ∀ e ∈ pre, noonDiff r < noonDiff e) := by
  induction l with
  | nil =>
    intro best _
    exact ⟨best, noonDiff best, rfl, rfl, by simp, le_refl _, Or.inl rfl⟩
  | cons e rest ih =>
    intro best hw
    have hwe : isWellTimed e = true := hw e (List.mem_cons_self e rest)
    have hwr : ∀ x ∈ rest, isWellTimed x = true :=
      fun x hx => hw x (List.mem_cons_of_mem e hx)
    have hstep : middayLoop best (some (noonDiff best)) (e :: rest) =
        (if noonDiff e < noonDiff best
         then middayLoop e (some (noonDiff e)) rest
         else middayLoop best (some (noonDiff best)) rest) :=
      middayLoop_cons_cmp (entryHour_of_isWellTimed hwe)
    by_cases hlt : noonDiff e < noonDiff best
    · obtain ⟨r, d, heq, hd, hmin, hle, hcase⟩ := ih e hwr
      refine ⟨r, d, ?_, hd, ?_, ?_, ?_⟩
      · rw [hstep, if_pos hlt]; exact heq
      · intro x hx
        rcases List.mem_cons.mp hx with rfl | hmem
        · exact hle
        · exact hmin x hmem
      · exact hle.trans hlt.le
      · right
        rcases hcase with rfl | ⟨pre, post, hrest, hr, hpre⟩
        · exact ⟨[], rest, rfl, hlt, by simp⟩
        · refine ⟨e :: pre, post, by rw [hrest, List.cons_append], hr.trans hlt, ?_⟩
          intro x hx
          rcases List.mem_cons.mp hx with rfl | hmem
          · exact hr
          · exact hpre x hmem
    · obtain ⟨r, d, heq, hd, hmin, hle, hcase⟩ := ih best hwr
      have hbe : noonDiff best ≤ noonDiff e := Nat.le_of_not_lt hlt
      refine ⟨r, d, ?_, hd, ?_, hle, ?_⟩
      · rw [hstep, if_neg hlt]; exact heq
      · intro x hx
        rcases List.mem_cons.mp hx with rfl | hmem
        · exact hle.trans hbe
        · exact hmin x hmem
      · rcases hcase with rfl | ⟨pre, post, hrest, hr, hpre⟩
        · exact Or.inl rfl
        · refine Or.inr ⟨e :: pre, post, by rw [hrest, List.cons_append], hr, ?_⟩
          intro x hx
          rcases List.mem_cons.mp hx with rfl | hmem
          · exact lt_of_lt_of_le hr hbe
          · exact hpre x hmem

/-- The loop's result is the incoming candidate or a member of the
list (no well-timedness needed). -/
theorem middayLoop_mem (l : List ForecastEntry) :
    ∀ best md r d, middayLoop best md l = .ok (r, d) → r = best ∨ r ∈ l := by
  induction l with
  | nil =>
    intro best md r d h
    rw [middayLoop] at h
    cases h
    exact Or.inl rfl
  | cons e rest ih =>
    intro best md r d h
    cases he : entryHour e with
    | error u =>
      cases u
      rw [middayLoop_cons_error he] at h
      cases h
    | ok o =>
      cases o with
      | none =>
        rw [middayLoop_cons_nan he] at h
        rcases ih best md r d h with h1 | h2
        · exact Or.inl h1
        · exact Or.inr (List.mem_cons_of_mem e h2)
      | some hh =>
        cases md with
        | none =>
          rw [middayLoop_cons_inf he] at h
          rcases ih e _ r d h with h1 | h2
          · exact Or.inr (by rw [h1]; exact List.mem_cons_self e rest)
          · exact Or.inr (List.mem_cons_of_mem e h2)
        | some m =>
          rw [middayLoop_cons_cmp he] at h
          by_cases hlt : (hh - 12).natAbs < m
          · rw [if_pos hlt] at h
            rcases ih e _ r d h with h1 | h2
            · exact Or.inr (by rw [h1]; exact List.mem_cons_self e rest)
            · exact Or.inr (List.mem_cons_of_mem e h2)
          · rw [if_neg hlt] at h
            rcases ih best _ r d h with h1 | h2
            · exact Or.inl h1
            · exact Or.inr (List.mem_cons_of_mem e h2)

/-- Behaviour of the `tempMin` fold once the accumulator is finite:
the result is the minimum of the accumulator and the entries. -/
theorem tempMinFold_spec (l : List ForecastEntry) :
    ∀ m : ℚ, ∃ mr, tempMinFold (some m) l = some mr ∧ mr ≤ m ∧
      (∀ e ∈ l, mr ≤ e.temp_min) ∧ (mr = m ∨ ∃ e ∈ l, mr = e.temp_min) := by
  induction l with
  | nil =>
    intro m
    exact ⟨m, rfl, le_refl m, by simp, Or.inl rfl⟩
  | cons e rest ih =>
    intro m
    by_cases h : e.temp_min < m
    · obtain ⟨mr, heq, hle, hall, hcase⟩ := ih e.temp_min
      refine ⟨mr, ?_, hle.trans h.le, ?_, ?_⟩
      · rw [tempMinFold, if_pos h]; exact heq
      · intro x hx
        rcases List.mem_cons.mp hx with rfl | hmem
        · exact hle
        · exact hall x hmem
      · rcases hcase with h1 | ⟨x, hx, h2⟩
        · exact Or.inr ⟨e, List.mem_cons_self e rest, h1⟩
        · exact Or.inr ⟨x, List.mem_cons_of_mem e hx, h2⟩
    · obtain ⟨mr, heq, hle, hall, hcase⟩ := ih m
      refine ⟨mr, ?_, hle, ?_, ?_⟩
      · rw [tempMinFold, if_neg h]; exact heq
      · intro x hx
        rcases List.mem_cons.mp hx with rfl | hmem
        · exact hle.trans (le_of_not_lt h)
        · exact hall x hmem
      · rcases hcase with h1 | ⟨x, hx, h2⟩
        · exact Or.inl h1
        · exact Or.inr ⟨x, List.mem_cons_of_mem e hx, h2⟩

/-- Behaviour of the `tempMax` fold once the accumulator is finite. -/
theorem tempMaxFold_spec (l : List ForecastEntry) :
    ∀ m : ℚ, ∃ mr, tempMaxFold (some m) l = some mr ∧ m ≤ mr ∧
      (∀ e ∈ l, e.temp_max ≤ mr) ∧ (mr = m ∨ ∃ e ∈ l, mr = e.temp_max) := by
  induction l with
  | nil =>
    intro m
    exact ⟨m, rfl, le_refl m, by simp, Or.inl rfl⟩
  | cons e rest ih =>
    intro m
    by_cases h : m < e.temp_max
    · obtain ⟨mr, heq, hle, hall, hcase⟩ := ih e.temp_max
      refine ⟨mr, ?_, h.le.trans hle, ?_, ?_⟩
      · rw [tempMaxFold, if_pos h]; exact heq
      · intro x hx
        rcases List.mem_cons.mp hx with rfl | hmem
        · exact hle
        · exact hall x hmem
      · rcases hcase with h1 | ⟨x, hx, h2⟩
        · exact Or.inr ⟨e, List.mem_cons_self e rest, h1⟩
        · exact Or.inr ⟨x, List.mem_cons_of_mem e hx, h2⟩
    · obtain ⟨mr, heq, hle, hall, hcase⟩ := ih m
      refine ⟨mr, ?_, hle, ?_, ?_⟩
      · rw [tempMaxFold, if_neg h]; exact heq
      · intro x hx
        rcases List.mem_cons.mp hx with rfl | hmem
        · exact (le_of_not_lt h).trans hle
        · exact hall x hmem
      · rcases hcase with h1 | ⟨x, hx, h2⟩
        · exact Or.inl h1
        · exact Or.inr ⟨x, List.mem_cons_of_mem e hx, h2⟩

/-- On a nonempty group the `tempMin` fold starting at `Infinity`
returns the minimum of the entries' `temp_min` fields. -/
theorem tempMinFold_none (es : List ForecastEntry) (hne : es ≠ []) :
    ∃ mr, tempMinFold Option.none es = some mr ∧
      (∀ e ∈ es, mr ≤ e.temp_min) ∧ ∃ e ∈ es, mr = e.temp_min := by
  obtain ⟨e0, tl, rfl⟩ := List.exists_cons_of_ne_nil hne
  have hstep : tempMinFold Option.none (e0 :: tl) = tempMinFold (some e0.temp_min) tl := by
    rw [tempMinFold]
  obtain ⟨mr, heq, hle, hall, hcase⟩ := tempMinFold_spec tl e0.temp_min
  refine ⟨mr, by rw [hstep]; exact heq, ?_, ?_⟩
  · intro x hx
    rcases List.mem_cons.mp hx with rfl | hmem
    · exact hle
    · exact hall x hmem
  · rcases hcase with h1 | ⟨x, hx, h2⟩
    · exact ⟨e0, List.mem_cons_self e0 tl, h1⟩
    · exact ⟨x, List.mem_cons_of_mem e0 hx, h2⟩

/-- On a nonempty group the `tempMax` fold starting at `-Infinity`
returns the maximum of the entries' `temp_max` fields. -/
theorem tempMaxFold_none (es : List ForecastEntry) (hne : es ≠ []) :
    ∃ mr, tempMaxFold Option.none es = some mr ∧
      (∀ e ∈ es, e.temp_max ≤ mr) ∧ ∃ e ∈ es, mr = e.temp_max := by
  obtain ⟨e0, tl, rfl⟩ := List.exists_cons_of_ne_nil hne
  have hstep : tempMaxFold Option.none (e0 :: tl) = tempMaxFold (some e0.temp_max) tl := by
    rw [tempMaxFold]
  obtain ⟨mr, heq, hle, hall, hcase⟩ := tempMaxFold_spec tl e0.temp_max
  refine ⟨mr, by rw [hstep]; exact heq, ?_, ?_⟩
  · intro x hx
    rcases List.mem_cons.mp hx with rfl | hmem
    · exact hle
    · exact hall x hmem
  · rcases hcase with h1 | ⟨x, hx, h2⟩
    · exact ⟨e0, List.mem_cons_self e0 tl, h1⟩
    · exact ⟨x, List.mem_cons_of_mem e0 hx, h2⟩

/-! ## Claim C1 — representative selection -/

/-- Claim C1: for a nonempty day group of samples with well-formed
timestamps, building the day's entry succeeds and its representative
sample is a group member whose hour-of-day has the smallest absolute
difference from 12:00; every group member strictly preceding the
representative in input order has a strictly larger difference, so
ties go to the first occurrence. -/
theorem c1_representative_closest_to_noon (es : List ForecastEntry)
    (hne : es ≠ []) (hw : ∀ e ∈ es, isWellTimed e = true) :
    ∃ df pre post, mkDaily es = .ok df ∧ es = pre ++ df.rep :: post ∧
      (∀ e ∈ es, noonDiff df.rep ≤ noonDiff e) ∧
      (∀ e ∈ pre, noonDiff df.rep < noonDiff e) := by
  obtain ⟨e0, tl, rfl⟩ := List.exists_cons_of_ne_nil hne
  have hwe : isWellTimed e0 = true := hw e0 (List.mem_cons_self e0 tl)
  have hwtl : ∀ x ∈ tl, isWellTimed x = true :=
    fun x hx => hw x (List.mem_cons_of_mem e0 hx)
  obtain ⟨r, d, heq, hd, hmin, hle, hcase⟩ := middayLoop_spec tl e0 hwtl
  have hloop : middayLoop ((e0 :: tl).headD default) Option.none (e0 :: tl) =
      .ok (r, some d) := by
    show middayLoop e0 Option.none (e0 :: tl) = .ok (r, some d)
    rw [middayLoop_cons_inf (entryHour_of_isWellTimed hwe)]
    exact heq
  have hmk : mkDaily (e0 :: tl) =
      .ok ⟨r, (tempMinFold Option.none (e0 :: tl)).getD 0,
            (tempMaxFold Option.none (e0 :: tl)).getD 0⟩ := by
    rw [mkDaily, hloop]
  rcases hcase with h1 | ⟨pre, post, htl, hr, hpre⟩
  · subst h1
    refine ⟨_, [], tl, hmk, rfl, ?_, by simp⟩
    intro x hx
    rcases List.mem_cons.mp hx with rfl | hmem
    · exact le_refl _
    · exact hmin x hmem
  · refine ⟨_, e0 :: pre, post, hmk, by rw [htl, List.cons_append], ?_, ?_⟩
    · intro x hx
      rcases List.mem_cons.mp hx with rfl | hmem
      · exact hle
      · exact hmin x hmem
    · intro x hx
      rcases List.mem_cons.mp hx with rfl | hmem
      · exact hr
      · exact hpre x hmem

/-- Witness for C1 at the spec's example group (hours 09:00, 12:00,
15:00): the selected representative is the 12:00 sample. -/
theorem c1_witness :
    mkDaily exC1 = .ok ⟨⟨"2099-01-02 12:00:00", 8, 22⟩, 8, 22⟩ ∧
    (∃ df pre post, mkDaily exC1 = .ok df ∧ exC1 = pre ++ df.rep :: post ∧
      (∀ e ∈ exC1, noonDiff df.rep ≤ noonDiff e) ∧
      (∀ e ∈ pre, noonDiff df.rep < noonDiff e)) :=
  ⟨by decide, c1_representative_closest_to_noon exC1 (by decide) (by decide)⟩

/-! ## Claim C2 — daily extrema -/

/-- Claim C2: whenever a day group yields a daily entry, that entry's
minimum temperature is the minimum of the group's `temp_min` fields
and its maximum is the maximum of the group's `temp_max` fields — both
computed from all samples of the group, not from the representative;
in particular a singleton group yields that sample's own bounds. -/
theorem c2_daily_bounds_are_group_extrema (es : List ForecastEntry)
    (df : DailyForecast) (hne : es ≠ []) (hok : mkDaily es = .ok df) :
    (∃ e ∈ es, df.tempMin = e.temp_min) ∧ (∀ e ∈ es, df.tempMin ≤ e.temp_min) ∧
    (∃ e ∈ es, df.tempMax = e.temp_max) ∧ (∀ e ∈ es, e.temp_max ≤ df.tempMax) := by
  obtain ⟨mn, hmn, hmnle, e1, he1, hmne⟩ := tempMinFold_none es hne
  obtain ⟨mx, hmx, hmxle, e2, he2, hmxe⟩ := tempMaxFold_none es hne
  cases hloop : middayLoop (es.headD default) Option.none es with
  | error u =>
    rw [mkDaily, hloop] at hok
    cases hok
  | ok p =>
    rw [mkDaily, hloop] at hok
    cases hok
    rw [hmn, hmx]
    exact ⟨⟨e1, he1, hmne⟩, fun e he => hmnle e he,
           ⟨e2, he2, hmxe⟩, fun e he => hmxle e he⟩

/-- Witness for C2 at the spec's example group (`temp_min` 10, 8, 12
and `temp_max` 20, 22, 19): the daily entry has min 8 and max 22. -/
theorem c2_witness :
    mkDaily exC2 = .ok ⟨⟨"2099-01-02 12:00:00", 8, 22⟩, 8, 22⟩ ∧
    ((∃ e ∈ exC2, (⟨⟨"2099-01-02 12:00:00", 8, 22⟩, 8, 22⟩ : DailyForecast).tempMin = e.temp_min) ∧
     (∀ e ∈ exC2, (⟨⟨"2099-01-02 12:00:00", 8, 22⟩, 8, 22⟩ : DailyForecast).tempMin ≤ e.temp_min) ∧
     (∃ e ∈ exC2, (⟨⟨"2099-01-02 12:00:00", 8, 22⟩, 8, 22⟩ : DailyForecast).tempMax = e.temp_max) ∧
     (∀ e ∈ exC2, e.temp_max ≤ (⟨⟨"2099-01-02 12:00:00", 8, 22⟩, 8, 22⟩ : DailyForecast).tempMax)) :=
  ⟨by decide,
   c2_daily_bounds_are_group_extrema exC2 ⟨⟨"2099-01-02 12:00:00", 8, 22⟩, 8, 22⟩
     (by decide) (by decide)⟩

/-! ## Grouping lemmas and claim C3 -/

theorem insertEntry_fst (m : List (String × List ForecastEntry)) (k : String)
    (e : ForecastEntry) :
    (insertEntry m k e).map Prod.fst =
      (if k ∈ m.map Prod.fst then m.map Prod.fst else m.map Prod.fst ++ [k]) := by
  induction m with
  | nil => simp [insertEntry]
  | cons p rest ih =>
    obtain ⟨k1, es1⟩ := p
    by_cases hk : k1 = k
    · subst hk
      simp [insertEntry]
    · rw [insertEntry, if_neg hk]
      simp only [List.map_cons, ih]
      by_cases hmem : k ∈ rest.map Prod.fst
      · have hmem2 : k ∈ k1 :: rest.map Prod.fst := List.mem_cons_of_mem k1 hmem
        rw [if_pos hmem, if_pos hmem2]
      · have hmem2 : k ∉ k1 :: rest.map Prod.fst := by
          intro hc
          rcases List.mem_cons.mp hc with h1 | h2
          · exact hk h1.symm
          · exact hmem h2
        rw [if_neg hmem, if_neg hmem2, List.cons_append]

theorem insertEntry_good (k : String) (e : ForecastEntry) (hk : dateKey e = k) :
    ∀ m, goodGroups m → goodGroups (insertEntry m k e) := by
  intro m
  induction m with
  | nil =>
    intro _ p hp
    rw [insertEntry] at hp
    rcases List.mem_singleton.mp hp with rfl
    refine ⟨by simp, ?_⟩
    intro x hx
    rcases List.mem_singleton.mp hx with rfl
    exact hk
  | cons q rest ih =>
    intro hm
    obtain ⟨k1, es1⟩ := q
    have hmrest : goodGroups rest := fun p hp => hm p (List.mem_cons_of_mem _ hp)
    have hmhead := hm (k1, es1) (List.mem_cons_self _ _)
    rw [insertEntry]
    by_cases h1 : k1 = k
    · rw [if_pos h1]
      intro p hp
      rcases List.mem_cons.mp hp with rfl | hmem
      · refine ⟨by simp, ?_⟩
        intro x hx
        rcases List.mem_append.mp hx with h2 | h2
        · exact hmhead.2 x h2
        · rcases List.mem_singleton.mp h2 with rfl
          rw [hk, h1]
      · exact hmrest p hmem
    · rw [if_neg h1]
      intro p hp
      rcases List.mem_cons.mp hp with rfl | hmem
      · exact hmhead
      · exact ih hmrest p hmem

theorem groupByDate_good (l : List ForecastEntry) : goodGroups (groupByDate l) := by
  suffices h : ∀ m, goodGroups m →
      goodGroups (l.foldl (fun m e => insertEntry m (dateKey e) e) m) by
    exact h [] (fun p hp => absurd hp (List.not_mem_nil p))
  induction l with
  | nil => intro m hm; exact hm
  | cons e rest ih =>
    intro m hm
    rw [List.foldl_cons]
    exact ih _ (insertEntry_good (dateKey e) e rfl m hm)

theorem groupKeys_sorted (l : List ForecastEntry) :
    ∀ m, ((l.map dateKey).Pairwise (· ≤ ·)) →
      ((m.map Prod.fst).Pairwise (· < ·)) →
      (∀ k ∈ m.map Prod.fst, ∀ e ∈ l, k ≤ dateKey e) →
      (((l.foldl (fun m e => insertEntry m (dateKey e) e) m).map Prod.fst).Pairwise
        (· < ·)) := by
  induction l with
  | nil =>
    intro m _ hm _
    exact hm
  | cons e rest ih =>
    intro m hl hm hbound
    rw [List.foldl_cons]
    have hl2 : (rest.map dateKey).Pairwise (· ≤ ·) := by
      rw [List.map_cons] at hl
      exact (List.pairwise_cons.mp hl).2
    have hhead : ∀ x ∈ rest, dateKey e ≤ dateKey x := by
      rw [List.map_cons] at hl
      intro x hx
      exact (List.pairwise_cons.mp hl).1 _ (List.mem_map_of_mem _ hx)
    apply ih _ hl2
    · rw [insertEntry_fst]
      split
      · exact hm
      · rename_i hnotmem
        apply List.pairwise_append.mpr
        refine ⟨hm, by simp, ?_⟩
        intro a ha b hb
        rcases List.mem_singleton.mp hb with rfl
        have hle : a ≤ dateKey e := hbound a ha e (List.mem_cons_self e rest)
        have hne : a ≠ dateKey e := fun hc => hnotmem (hc ▸ ha)
        exact lt_of_le_of_ne hle hne
    · intro k hk x hx
      rw [insertEntry_fst] at hk
      split at hk
      · exact hbound k hk x (List.mem_cons_of_mem e hx)
      · rcases List.mem_append.mp hk with h2 | h2
        · exact hbound k h2 x (List.mem_cons_of_mem e hx)
        · rcases List.mem_singleton.mp h2 with rfl
          exact hhead x hx

theorem mkDaily_rep_mem {es : List ForecastEntry} {df : DailyForecast}
    (hne : es ≠ []) (hok : mkDaily es = .ok df) : df.rep ∈ es := by
  cases hloop : middayLoop (es.headD default) Option.none es with
  | error u =>
    rw [mkDaily, hloop] at hok
    cases hok
  | ok p =>
    obtain ⟨r, md⟩ := p
    rw [mkDaily, hloop] at hok
    cases hok
    rcases middayLoop_mem es _ _ _ _ hloop with h1 | h2
    · obtain ⟨e0, tl, rfl⟩ := List.exists_cons_of_ne_nil hne
      rw [h1]
      exact List.mem_cons_self e0 tl
    · exact h2

theorem processGroups_spec (today : String)
    (gs : List (String × List ForecastEntry)) :
    ∀ (acc : List DailyForecast) (l : List DailyForecast),
      processGroups today gs acc = .ok l → goodGroups gs →
      ∃ tail, l = acc ++ tail ∧
        List.Sublist (tail.map (fun df => dateKey df.rep))
          ((gs.map Prod.fst).filter (fun k => k ≠ today)) ∧
        (∀ df ∈ tail, dateKey df.rep ≠ today) ∧
        l.length = (if 5 ≤ acc.length then acc.length
                    else min 5 (acc.length +
                      ((gs.map Prod.fst).filter (fun k => k ≠ today)).length)) := by
  induction gs with
  | nil =>
    intro acc l hok _
    rw [processGroups] at hok
    cases hok
    refine ⟨[], by simp, by simp, by simp, ?_⟩
    simp only [List.map_nil, List.filter_nil, List.length_nil, Nat.add_zero,
      List.append_nil]
    split
    · rfl
    · rename_i hlt
      rw [Nat.min_def]
      split <;> omega
  | cons g rest ih =>
    obtain ⟨k, es⟩ := g
    intro acc l hok hg
    have hgrest : goodGroups rest := fun p hp => hg p (List.mem_cons_of_mem _ hp)
    have hges := hg (k, es) (List.mem_cons_self _ _)
    rw [processGroups] at hok
    have hfilcons : ∀ (b : List String),
        ((k :: b).filter (fun x => x ≠ today)) =
          (if k = today then b.filter (fun x => x ≠ today)
           else k :: b.filter (fun x => x ≠ today)) := by
      intro b
      by_cases hk : k = today
      · simp [List.filter_cons, hk]
      · simp [List.filter_cons, hk]
    by_cases hk : k = today
    · rw [if_pos hk] at hok
      obtain ⟨tail, h1, h2, h3, h4⟩ := ih acc l hok hgrest
      refine ⟨tail, h1, ?_, h3, ?_⟩
      · rw [List.map_cons, hfilcons, if_pos hk]
        exact h2
      · rw [List.map_cons, hfilcons, if_pos hk]
        exact h4
    · rw [if_neg hk] at hok
      by_cases hacc : 5 ≤ acc.length
      · rw [if_pos hacc] at hok
        obtain ⟨tail, h1, h2, h3, h4⟩ := ih acc l hok hgrest
        have hlen : l.length = acc.length := by
          rw [h4, if_pos hacc]
        have htail : tail = [] := by
          have hla := congrArg List.length h1
          rw [List.length_append, hlen] at hla
          have : tail.length = 0 := by omega
          exact List.length_eq_zero.mp this
        subst htail
        refine ⟨[], h1, by simp, by simp, ?_⟩
        rw [if_pos hacc]
        exact hlen
      · rw [if_neg hacc] at hok
        cases hmk : mkDaily es with
        | error u =>
          rw [hmk] at hok
          cases hok
        | ok df =>
          rw [hmk] at hok
          obtain ⟨tail, h1, h2, h3, h4⟩ := ih (acc ++ [df]) l hok hgrest
          have hdk : dateKey df.rep = k := hges.2 df.rep (mkDaily_rep_mem hges.1 hmk)
          refine ⟨df :: tail, ?_, ?_, ?_, ?_⟩
          · rw [h1, List.append_assoc]
            rfl
          · simp only [List.map_cons]
            rw [hfilcons, if_neg hk, hdk]
            exact List.Sublist.cons₂ k h2
          · intro df2 hdf2
            rcases List.mem_cons.mp hdf2 with rfl | hmem
            · rw [hdk]
              exact hk
            · exact h3 df2 hmem
          · simp only [List.map_cons]
            rw [hfilcons, if_neg hk, if_neg hacc]
            rw [List.length_append] at h4
            simp only [List.length_singleton, List.length_cons, List.length_nil] at h4 ⊢
            by_cases h5 : 5 ≤ acc.length + 1
            · rw [if_pos h5] at h4
              omega
            · rw [if_neg h5] at h4
              omega

/-- Counterexample to claim C3: a well-formed input whose dates appear
out of chronological order produces an aggregated list whose entries
are not ordered chronologically — the code emits groups in the order
their dates first appear in the input, with no sorting. -/
theorem c3_cex :
    aggregateForecast entsC3bad "2099-01-01" =
      .ok [⟨⟨"2099-01-03 12:00:00", 1, 2⟩, 1, 2⟩,
           ⟨⟨"2099-01-02 12:00:00", 3, 4⟩, 3, 4⟩] ∧
    (([⟨⟨"2099-01-03 12:00:00", 1, 2⟩, 1, 2⟩,
       ⟨⟨"2099-01-02 12:00:00", 3, 4⟩, 3, 4⟩] : List DailyForecast).map
        (fun df => dateKey df.rep)) =
      ["2099-01-03", "2099-01-02"] ∧
    ¬ (["2099-01-03", "2099-01-02"].Pairwise (fun a b : String => a < b)) := by
  refine ⟨by decide, by decide, ?_⟩
  intro h
  have h1 : ("2099-01-03" : String) < "2099-01-02" :=
    (List.pairwise_cons.mp h).1 _ (List.mem_singleton.mpr rfl)
  rw [String.lt_iff_toList_lt] at h1
  revert h1
  decide

/-- Claim C3 (amended): every aggregated list contains no entry dated
the current calendar day and has exactly `min 5 n` entries, where `n`
is the number of distinct non-today dates in the input (so at most 5,
and fewer — with no padding — when fewer future-day groups exist;
exactly 5 when the input spans today plus 5 future days).  The entries
appear in the order their dates first appear in the input, which is
strictly increasing chronological order whenever the input samples'
dates are in nondecreasing order (as the provider's payload is), but
not for an arbitrarily ordered input. -/
theorem c3_amended_aggregate_shape (entries : List ForecastEntry) (todayKey : String)
    (l : List DailyForecast) (hok : aggregateForecast entries todayKey = .ok l) :
    (∀ df ∈ l, dateKey df.rep ≠ todayKey) ∧
    l.length =
      min 5 (((groupByDate entries).map Prod.fst).filter (fun k => k ≠ todayKey)).length ∧
    ((entries.map dateKey).Pairwise (· ≤ ·) →
      (l.map (fun df => dateKey df.rep)).Pairwise (· < ·)) := by
  obtain ⟨tail, h1, h2, h3, h4⟩ :=
    processGroups_spec todayKey (groupByDate entries) [] l hok (groupByDate_good entries)
  rw [List.nil_append] at h1
  subst h1
  refine ⟨h3, ?_, ?_⟩
  · rw [h4]
    simp
  · intro hsort
    have hkeys : ((groupByDate entries).map Prod.fst).Pairwise (· < ·) := by
      apply groupKeys_sorted entries [] hsort
      · simp
      · simp
    have hfil :
        ((((groupByDate entries).map Prod.fst)).filter (fun k => k ≠ todayKey)).Pairwise
          (· < ·) :=
      List.Pairwise.filter _ hkeys
    exact List.Pairwise.sublist h2 hfil

/-- Witness for C3 at a payload spanning today (2099-01-01) plus five
future days: exactly 5 entries, none dated today, chronologically
ordered. -/
theorem c3_witness :
    aggregateForecast entsC3 "2099-01-01" = .ok outC3 ∧
    ((∀ df ∈ outC3, dateKey df.rep ≠ "2099-01-01") ∧
     outC3.length =
       min 5 (((groupByDate entsC3).map Prod.fst).filter
         (fun k => k ≠ "2099-01-01")).length ∧
     ((entsC3.map dateKey).Pairwise (· ≤ ·) →
       (outC3.map (fun df => dateKey df.rep)).Pairwise (· < ·))) :=
  ⟨by decide, c3_amended_aggregate_shape entsC3 "2099-01-01" outC3 (by decide)⟩

end SkyView
